import Mathlib

/-!
Shallow embedding of the time-series construction and anomaly-correction
engine of the scfunding repository (src/app/src/loading and src/app/src/stats),
with theorems settling the specification claims.

Numeric values (pledges, deltas) are modelled as rationals; pandas NaN cells
are modelled with Option. Timestamps are modelled as integers (day or hour
numbers); a resample to a coarser frequency is modelled as a partition of the
base series into consecutive chunks (the periods).
-/

namespace SCFunding

/-! ### TimeSeriesConstructor (src/app/src/loading/time_series.py) -/

/-- Embeds pandas cumulative sum: entry `k` is the sum of the first `k+1`
entries. Used by `TimeSeriesConstructor.add_totals`, which derives
`total_pledge` (resp. `total_citizens`) as `delta.cumsum()` when the total
column is not already present in the resampled frame. -/
def cumsum (xs : List ℚ) : List ℚ :=
  (List.range xs.length).map (fun k => (xs.take (k + 1)).sum)

/-- Embeds `TimeSeriesConstructor.get`: the resample step
`resample(freq).agg('sum')` applied to a summable (delta) column. The base
hourly series is given as its partition into consecutive period chunks
(one chunk per resampled period); the aggregated value of a period is the
sum of the hourly deltas inside it. -/
def resampleSum (chunks : List (List ℚ)) : List ℚ :=
  chunks.map List.sum

/-- Embeds `TimeSeriesConstructor.add_totals` applied after a sum-resample:
the running total column is the cumulative sum of the resampled delta
column (the total column is absent from the aggregated frame, so the
`not in columns` guard in the source fires). -/
def add_totals (resampledDelta : List ℚ) : List ℚ :=
  cumsum resampledDelta

lemma cumsum_getD (xs : List ℚ) (k : ℕ) (hk : k < xs.length) :
    (cumsum xs).getD k 0 = (xs.take (k + 1)).sum := by
  unfold cumsum
  rw [List.getD_eq_getElem?_getD, List.getElem?_map]
  simp [List.getElem?_range, hk]

lemma sum_take_getD (xs : List ℚ) (k : ℕ) (hk : k < xs.length) :
    (xs.take (k + 1)).sum = (xs.take k).sum + xs.getD k 0 := by
  rw [List.getD_eq_getElem?_getD, List.getElem?_eq_getElem hk, Option.getD_some]
  exact List.sum_take_succ xs k hk

/-- Claim C1: for every base (hourly) delta series and every resample
frequency (modelled as a partition of the base series into consecutive
period chunks), the sum of `delta_pledge` over resampled period `k`
(`k ≥ 1`) equals the running total at period `k` minus the running total at
period `k - 1`, because `add_totals` derives the total column by
cumulative-summing the resampled deltas of the single base series. -/
theorem C1_totals_are_cumsum_of_resampled_deltas
    (chunks : List (List ℚ)) (k : ℕ) (hk1 : 1 ≤ k) (hk : k < chunks.length) :
    (chunks.getD k []).sum =
      (add_totals (resampleSum chunks)).getD k 0 -
        (add_totals (resampleSum chunks)).getD (k - 1) 0 := by
  have hlen : (resampleSum chunks).length = chunks.length := by
    simp [resampleSum]
  have hk' : k < (resampleSum chunks).length := by rw [hlen]; exact hk
  have hk1' : k - 1 < (resampleSum chunks).length :=
    lt_of_le_of_lt (Nat.sub_le k 1) hk'
  unfold add_totals
  rw [cumsum_getD _ k hk', cumsum_getD _ (k - 1) hk1']
  have hsub : k - 1 + 1 = k := Nat.succ_pred_eq_of_pos hk1
  rw [hsub, sum_take_getD _ k hk']
  have hdelta : (resampleSum chunks).getD k 0 = (chunks.getD k []).sum := by
    unfold resampleSum
    rw [List.getD_eq_getElem?_getD, List.getElem?_map,
        List.getD_eq_getElem?_getD, List.getElem?_eq_getElem hk]
    simp
  rw [hdelta]
  ring

/-- Witness for C1 at a concrete input: base hourly deltas
`[1, 2, 3, 4, 5]` resampled into periods `[[1,2],[3,4],[5]]`; at period 1
the period sum `7` equals `total(1) - total(0) = 10 - 3`. -/
theorem C1_totals_are_cumsum_of_resampled_deltas_witness :
    (([[(1 : ℚ), 2], [3, 4], [5]].getD 1 []).sum =
      (add_totals (resampleSum [[(1 : ℚ), 2], [3, 4], [5]])).getD 1 0 -
        (add_totals (resampleSum [[(1 : ℚ), 2], [3, 4], [5]])).getD 0 0) :=
  C1_totals_are_cumsum_of_resampled_deltas [[(1 : ℚ), 2], [3, 4], [5]] 1
    (by decide) (by decide)

/-- Embeds pandas `rolling(window=N, min_periods=1).sum()` on a column:
entry `j` is the sum of the window of at most `N` entries ending at `j`
(with fewer than `N` entries near the start, since `min_periods=1`). -/
def rollingSum (xs : List ℚ) (N : ℕ) : List ℚ :=
  (List.range xs.length).map (fun j => ((xs.take (j + 1)).drop (j + 1 - N)).sum)

/-- Embeds pandas `shift(1)` on a column: a missing cell (NaN, modelled as
`none`) is prepended and the last entry dropped, keeping the length. -/
def shiftOne (ys : List ℚ) : List (Option ℚ) :=
  (none :: ys.map some).take ys.length

/-- Embeds `TimeSeriesConstructor.add_rolling_totals` for one summable
column: `rolling(window=last_periods, min_periods=1).sum().shift(1)`. -/
def add_rolling_totals (xs : List ℚ) (last_periods : ℕ) : List (Option ℚ) :=
  shiftOne (rollingSum xs last_periods)

/-- The slice sum `sum(delta[a:b])` of the claim, on natural bounds:
the sum of the entries at positions `a ≤ i < b`. -/
def sliceSum (xs : List ℚ) (a b : ℕ) : ℚ :=
  ((xs.drop a).take (b - a)).sum

lemma shiftOne_getD (ys : List ℚ) (k : ℕ) (hk1 : 1 ≤ k) (hk : k < ys.length) :
    (shiftOne ys).getD k none = some (ys.getD (k - 1) 0) := by
  obtain ⟨j, rfl⟩ : ∃ j, k = j + 1 := ⟨k - 1, (Nat.succ_pred_eq_of_pos hk1).symm⟩
  unfold shiftOne
  have hj : j < ys.length := lt_of_le_of_lt (Nat.le_succ j) hk
  rw [List.getD_eq_getElem?_getD, List.getElem?_take_of_lt hk,
      List.getElem?_cons_succ, List.getElem?_map,
      List.getElem?_eq_getElem hj]
  simp [List.getD_eq_getElem?_getD, List.getElem?_eq_getElem hj]

lemma rollingSum_getD (xs : List ℚ) (N j : ℕ) (hj : j < xs.length) :
    (rollingSum xs N).getD j 0 = ((xs.take (j + 1)).drop (j + 1 - N)).sum := by
  unfold rollingSum
  rw [List.getD_eq_getElem?_getD, List.getElem?_map, List.getElem?_range hj]
  simp

/-- Claim C4 (counterexample to the claim as stated): at period `k = 0` the
trailing rolling-sum column holds a missing value (NaN, from the shift),
not the empty-window sum `0` that "the sum of the delta column over the `N`
periods strictly before `k`" prescribes. -/
theorem C4_counterexample :
    (add_rolling_totals [(5 : ℚ), 7, 9] 2).getD 0 (some 0) = none ∧
      (none : Option ℚ) ≠ some (sliceSum [(5 : ℚ), 7, 9] (0 - 2) 0) := by
  constructor
  · rfl
  · intro h; exact Option.noConfusion h

/-- Claim C4 (amended: restricted to periods `k ≥ 1`; at `k = 0` the column
holds NaN): for every series, window length `N` and period index `k ≥ 1`,
the trailing rolling-sum column at period `k` equals the sum of the delta
column over the periods `k - N` through `k - 1`, excluding period `k`
itself. -/
theorem C4_rolling_sum_excludes_current_period
    (xs : List ℚ) (N k : ℕ) (hk1 : 1 ≤ k) (hk : k < xs.length) :
    (add_rolling_totals xs N).getD k none = some (sliceSum xs (k - N) k) := by
  have hlen : (rollingSum xs N).length = xs.length := by
    simp [rollingSum]
  have hk' : k < (rollingSum xs N).length := by rw [hlen]; exact hk
  unfold add_rolling_totals
  rw [shiftOne_getD _ k hk1 hk']
  have hj : k - 1 < xs.length := lt_of_le_of_lt (Nat.sub_le k 1) hk
  rw [rollingSum_getD _ N (k - 1) hj]
  have hsub : k - 1 + 1 = k := Nat.succ_pred_eq_of_pos hk1
  rw [hsub]
  unfold sliceSum
  rw [List.drop_take]

/-- Witness for the amended C4 at a concrete input: for deltas `[5, 7, 9]`
with window `N = 2`, the column at period `2` is `5 + 7 = 12`, the sum over
periods `0` and `1`. -/
theorem C4_rolling_sum_excludes_current_period_witness :
    (add_rolling_totals [(5 : ℚ), 7, 9] 2).getD 2 none =
      some (sliceSum [(5 : ℚ), 7, 9] (2 - 2) 2) :=
  C4_rolling_sum_excludes_current_period [(5 : ℚ), 7, 9] 2 2
    (by decide) (by decide)

/-- Embeds `TimeSeriesConstructor.add_in_year_totals` for one summable
column: pandas `groupby(index.year)[delta].cumsum()`. A row is the pair
(year of the index entry, delta value); the in-year total at position `i`
is the sum of the deltas at positions `j ≤ i` whose year equals the year
at position `i`. -/
def inYearTotal (rows : List (ℤ × ℚ)) (i : ℕ) : ℚ :=
  (((rows.take (i + 1)).filter
    (fun p => p.1 = (rows.getD i (0, 0)).1)).map Prod.snd).sum

/-- The full in-year total column added by `add_in_year_totals`. -/
def add_in_year_totals (rows : List (ℤ × ℚ)) : List ℚ :=
  (List.range rows.length).map (inYearTotal rows)

lemma pair_getD_eq_getElem (rows : List (ℤ × ℚ)) (i : ℕ)
    (h : i < rows.length) : rows.getD i (0, 0) = rows[i] := by
  rw [List.getD_eq_getElem?_getD, List.getElem?_eq_getElem h]
  rfl

/-- Claim C5 (counterexample to the claim as stated): with rows
`[(year 2020, delta 5), (year 2020, delta -3)]` the in-year totals are
`[5, 2]`, which decrease within the year — the code places no lower bound
on delta values, so the cumulative in-year sum need not be
non-decreasing. -/
theorem C5_counterexample :
    inYearTotal [((2020 : ℤ), (5 : ℚ)), (2020, -3)] 1 <
      inYearTotal [((2020 : ℤ), (5 : ℚ)), (2020, -3)] 0 := by
  norm_num [inYearTotal]

/-- Claim C5 (amended: the monotonicity conjunct holds only when the delta
values are non-negative): at the first period of a calendar year the
in-year total equals that period's delta value, and across two consecutive
periods of the same year the in-year total does not decrease provided the
later period's delta is non-negative. -/
theorem C5_in_year_totals_reset_and_monotone
    (rows : List (ℤ × ℚ)) (i : ℕ) :
    (i < rows.length →
      (∀ j, j < i → (rows.getD j (0, 0)).1 ≠ (rows.getD i (0, 0)).1) →
      inYearTotal rows i = (rows.getD i (0, 0)).2) ∧
    (i + 1 < rows.length →
      (rows.getD (i + 1) (0, 0)).1 = (rows.getD i (0, 0)).1 →
      0 ≤ (rows.getD (i + 1) (0, 0)).2 →
      inYearTotal rows i ≤ inYearTotal rows (i + 1)) := by
  constructor
  · intro hi hfirst
    unfold inYearTotal
    rw [List.take_succ, List.getElem?_eq_getElem hi]
    have hnil : (rows.take i).filter
        (fun p => decide (p.1 = (rows.getD i (0, 0)).1)) = [] := by
      rw [List.filter_eq_nil_iff]
      intro p hp
      obtain ⟨j, hj, hpj⟩ := List.getElem_of_mem hp
      have hjlen : j < i := by
        have := hj
        rw [List.length_take] at this
        omega
      have hjlt : j < rows.length := lt_trans hjlen hi
      rw [List.getElem_take] at hpj
      have hne := hfirst j hjlen
      rw [pair_getD_eq_getElem rows j hjlt] at hne
      rw [hpj] at hne
      simpa using hne
    rw [List.filter_append, hnil, List.nil_append, Option.toList_some]
    rw [List.filter_cons_of_pos]
    · rw [List.filter_nil, List.map_cons, List.map_nil, List.sum_cons,
          List.sum_nil, add_zero, pair_getD_eq_getElem rows i hi]
    · rw [pair_getD_eq_getElem rows i hi]
      simp
  · intro hlen hyear hdelta
    have hi : i < rows.length := by omega
    rw [pair_getD_eq_getElem rows (i + 1) hlen] at hyear hdelta
    rw [pair_getD_eq_getElem rows i hi] at hyear
    unfold inYearTotal
    rw [pair_getD_eq_getElem rows i hi, pair_getD_eq_getElem rows (i + 1) hlen,
        hyear]
    conv_rhs => rw [List.take_succ, List.getElem?_eq_getElem hlen,
      Option.toList_some, List.filter_append, List.map_append, List.sum_append]
    have hle : 0 ≤ (((List.filter
        (fun p => decide (p.1 = rows[i].1)) [rows[i + 1]]).map
          Prod.snd).sum) := by
      by_cases hp : rows[i + 1].1 = rows[i].1
      · simp [List.filter_cons, hp, hdelta]
      · simp [List.filter_cons, hp]
    linarith [hle]

/-- Witness for the amended C5 at a concrete input: rows
`[(2019, 4), (2020, 5), (2020, 3)]`: position `1` opens year 2020 so its
in-year total is its delta `5`, and the total does not decrease from
position `1` to position `2` since the delta `3` is non-negative. -/
theorem C5_in_year_totals_reset_and_monotone_witness :
    inYearTotal [((2019 : ℤ), (4 : ℚ)), (2020, 5), (2020, 3)] 1 =
        (([((2019 : ℤ), (4 : ℚ)), (2020, 5), (2020, 3)]).getD 1 (0, 0)).2 ∧
      inYearTotal [((2019 : ℤ), (4 : ℚ)), (2020, 5), (2020, 3)] 1 ≤
        inYearTotal [((2019 : ℤ), (4 : ℚ)), (2020, 5), (2020, 3)] 2 := by
  constructor
  · exact (C5_in_year_totals_reset_and_monotone
      [((2019 : ℤ), (4 : ℚ)), (2020, 5), (2020, 3)] 1).1
      (by decide) (by decide)
  · exact (C5_in_year_totals_reset_and_monotone
      [((2019 : ℤ), (4 : ℚ)), (2020, 5), (2020, 3)] 1).2
      (by decide) (by decide) (by decide)

/-! ### TransactionParser duplicate-date repair
(src/app/src/loading/loader.py, `parse_dataframe`, case b) -/

/-- Helper for `point_of_rupture`: scans the tail of the position list,
keeping each position whose difference from its predecessor is at least
24 (the pandas `diff() >= 24` test; the first position has a NaN diff and
never qualifies). -/
def ruptureScan (prev : ℕ) : List ℕ → List ℕ
  | [] => []
  | y :: rest =>
    if 24 ≤ y - prev then y :: ruptureScan y rest else ruptureScan y rest

/-- Embeds `matching_date_indexes[matching_date_indexes.diff() >= 24]` of
`parse_dataframe`: the rupture points of a duplicated-date group, given the
increasing dataframe positions holding that calendar date. -/
def point_of_rupture : List ℕ → List ℕ
  | [] => []
  | x :: rest => ruptureScan x rest

/-- Embeds the island split and repair decision of `parse_dataframe`
(case b) for one duplicated calendar date group: `m` and `d` are the
month and day of the duplicated date and `xs` the increasing dataframe
positions holding it. Returns the positions whose timestamps are
reinterpreted with day and month swapped (via
`correct_datetime_format`), and whether the non-fatal flag (zero or more
than one rupture point) was raised. With exactly one rupture `r`, the
first island is `matching_date_indexes.loc[:r - 1]` (positions `< r`) and
the second island the positions `≥ r`; `month > day` marks the first
island incorrect, `month < day` the second. -/
def repairGroup (m d : ℕ) (xs : List ℕ) : List ℕ × Bool :=
  match point_of_rupture xs with
  | [r] =>
    if d < m then (xs.filter (fun x => x < r), false)
    else if m < d then (xs.filter (fun x => r ≤ x), false)
    else ([], false)
  | _ => ([], true)

lemma repairGroup_of_single (m d : ℕ) (xs : List ℕ) (r : ℕ)
    (hr : point_of_rupture xs = [r]) :
    repairGroup m d xs =
      if d < m then (xs.filter (fun x => x < r), false)
      else if m < d then (xs.filter (fun x => r ≤ x), false)
      else ([], false) := by
  unfold repairGroup
  rw [hr]

/-- Claim C2 (counterexample to the claim as stated): for the duplicated
date with month 12 and day 5 (so month > day) and the position group
`[0, 30]` with its single rupture point at 30, the code reinterprets the
earlier island `[0]` and keeps the later island — the claim states the
opposite assignment (earlier kept, later reinterpreted). -/
theorem C2_counterexample :
    5 < 12 ∧ point_of_rupture [0, 30] = [30] ∧
      (repairGroup 12 5 [0, 30]).1 = [0] ∧
      (repairGroup 12 5 [0, 30]).1 ≠ [30] := by
  decide

/-- Claim C2 (amended: the direction of the repair is the reverse of the
claim): for every date group with exactly one rupture point `r`, if the
date's month exceeds its day then exactly the earlier island's positions
(those `< r`) are reinterpreted with day and month swapped and the later
island is kept, and conversely if the month is less than the day exactly
the later island (positions `≥ r`) is reinterpreted, with no flag raised;
for every group with zero or more than one rupture point, no position is
corrected and the non-fatal flag is raised. -/
theorem C2_duplicate_date_repair (m d : ℕ) (xs : List ℕ) :
    (∀ r, point_of_rupture xs = [r] →
      ((d < m → ∀ x ∈ xs, (x ∈ (repairGroup m d xs).1 ↔ x < r)) ∧
        (m < d → ∀ x ∈ xs, (x ∈ (repairGroup m d xs).1 ↔ r ≤ x)) ∧
        (repairGroup m d xs).2 = false)) ∧
    ((point_of_rupture xs).length ≠ 1 →
      (repairGroup m d xs).1 = [] ∧ (repairGroup m d xs).2 = true) := by
  constructor
  · intro r hr
    rw [repairGroup_of_single m d xs r hr]
    refine ⟨?_, ?_, ?_⟩
    · intro hdm x hx
      rw [if_pos hdm]
      simp [List.mem_filter, hx]
    · intro hmd x hx
      have hnd : ¬ d < m := by omega
      rw [if_neg hnd, if_pos hmd]
      simp [List.mem_filter, hx]
    · by_cases hdm : d < m
      · rw [if_pos hdm]
      · rw [if_neg hdm]
        by_cases hmd : m < d
        · rw [if_pos hmd]
        · rw [if_neg hmd]
  · intro hlen
    unfold repairGroup
    rcases hpo : point_of_rupture xs with _ | ⟨a, _ | ⟨b, t⟩⟩
    · exact ⟨rfl, rfl⟩
    · rw [hpo] at hlen
      simp at hlen
    · exact ⟨rfl, rfl⟩

/-- Witness for the amended C2 at concrete inputs: for month 12, day 5 and
group `[0, 30]` (one rupture at 30) position 0 lies in the corrected set
because it is in the earlier island, and for month 7, day 20 and the
rupture-free group `[0, 1, 2]` nothing is corrected and the flag is
raised. -/
theorem C2_duplicate_date_repair_witness :
    (0 ∈ (repairGroup 12 5 [0, 30]).1 ↔ 0 < 30) ∧
      ((repairGroup 7 20 [0, 1, 2]).1 = [] ∧
        (repairGroup 7 20 [0, 1, 2]).2 = true) :=
  ⟨((C2_duplicate_date_repair 12 5 [0, 30]).1 30 (by decide)).1
      (by decide) 0 (by decide),
    (C2_duplicate_date_repair 7 20 [0, 1, 2]).2 (by decide)⟩

/-! ### CompleteTimeSeries (src/app/src/loading/combined_signals.py) -/

/-- Pandas `index.max()` on an integer time index (first element seeds the
fold; the empty index, whose pandas maximum is NaT, is given 0). -/
def indexMax : List ℤ → ℤ
  | [] => 0
  | x :: rest => rest.foldl max x

/-- Pandas `index.min()`, seeded like `indexMax`. -/
def indexMin : List ℤ → ℤ
  | [] => 0
  | x :: rest => rest.foldl min x

/-- Embeds the two outer joins of `CompleteTimeSeries.get_time_series`:
the combined index is the union of the transaction, calendar-event and
game-version indexes. -/
def outerJoinIndex (tx cal ver : List ℤ) : List ℤ :=
  (tx ++ cal ++ ver).dedup

/-- Embeds `combined_df.loc[:max_date]` with
`max_date = transactions.index.max()`; the following
`fillna(method='ffill')` and `add_time_metrics` steps do not change the
index. -/
def truncatedIndex (tx cal ver : List ℤ) : List ℤ :=
  (outerJoinIndex tx cal ver).filter (fun t => t ≤ indexMax tx)

/-- Embeds `asfreq(freq)`: reindexing to the regular grid (step one
period) from the minimum to the maximum of the given index. -/
def asfreqIndex (xs : List ℤ) : List ℤ :=
  if xs = [] then []
  else
    (List.range (indexMax xs - indexMin xs + 1).toNat).map
      (fun i : ℕ => indexMin xs + (i : ℤ))

/-- Embeds the index of the series returned by
`CompleteTimeSeries.get_time_series`: outer join, truncation to the
transaction horizon, then `dropna(subset=['delta_pledge'])` (the rows
still lacking a delta after the forward fill, modelled by the arbitrary
predicate `keep`) and `asfreq`. -/
def get_time_series_index (tx cal ver : List ℤ) (keep : ℤ → Bool) :
    List ℤ :=
  asfreqIndex ((truncatedIndex tx cal ver).filter keep)

lemma le_foldl_max (xs : List ℤ) (b : ℤ) : b ≤ xs.foldl max b := by
  induction xs generalizing b with
  | nil => exact le_refl b
  | cons y t ih => exact le_trans (le_max_left b y) (ih (max b y))

lemma foldl_max_le (t : List ℤ) (b B : ℤ) (hb : b ≤ B)
    (ht : ∀ z ∈ t, z ≤ B) : t.foldl max b ≤ B := by
  induction t generalizing b with
  | nil => exact hb
  | cons y s ih =>
    exact ih (max b y) (max_le hb (ht y (by simp)))
      (fun z hz => ht z (by simp [hz]))

lemma foldl_min_le (t : List ℤ) (b : ℤ) : t.foldl min b ≤ b := by
  induction t generalizing b with
  | nil => exact le_refl b
  | cons y s ih => exact le_trans (ih (min b y)) (min_le_left b y)

lemma indexMax_le_of_forall (xs : List ℤ) (B : ℤ) (hne : xs ≠ [])
    (h : ∀ z ∈ xs, z ≤ B) : indexMax xs ≤ B := by
  match xs with
  | [] => exact absurd rfl hne
  | x :: rest =>
    exact foldl_max_le rest x B (h x (by simp))
      (fun z hz => h z (by simp [hz]))

lemma indexMin_le_indexMax (xs : List ℤ) (hne : xs ≠ []) :
    indexMin xs ≤ indexMax xs := by
  match xs with
  | [] => exact absurd rfl hne
  | x :: rest =>
    exact le_trans (foldl_min_le rest x) (le_foldl_max rest x)

/-- Claim C3: for every combination of transaction, annotation and version
indexes, every frequency and every residual-NaN pattern at the open end,
each timestamp of the merged series is at most the maximum timestamp of
the transaction series, even when the annotation or version indexes
extend later — the outer join is truncated at
`max_date = transactions.index.max()` before the forward fill. -/
theorem C3_merged_series_bounded_by_transaction_horizon
    (tx cal ver : List ℤ) (keep : ℤ → Bool) :
    ∀ t ∈ get_time_series_index tx cal ver keep, t ≤ indexMax tx := by
  intro t ht
  unfold get_time_series_index at ht
  rcases hcase : (truncatedIndex tx cal ver).filter keep with _ | ⟨z, zs⟩
  · rw [hcase] at ht
    simp [asfreqIndex] at ht
  · rw [hcase] at ht
    unfold asfreqIndex at ht
    rw [if_neg (by simp)] at ht
    rw [List.mem_map] at ht
    obtain ⟨i, hi, rfl⟩ := ht
    rw [List.mem_range] at hi
    have hbound : ∀ w ∈ z :: zs, w ≤ indexMax tx := by
      intro w hw
      rw [← hcase] at hw
      have hw2 := List.mem_of_mem_filter hw
      unfold truncatedIndex at hw2
      have hfin := List.of_mem_filter hw2
      simpa using hfin
    have hmaxle : indexMax (z :: zs) ≤ indexMax tx :=
      indexMax_le_of_forall _ _ (by simp) hbound
    have hminle : indexMin (z :: zs) ≤ indexMax (z :: zs) :=
      indexMin_le_indexMax _ (by simp)
    omega

/-- Witness for C3 at a concrete input: transactions at days `[5, 10]`,
annotations at `[12]` and versions at `[20]` extend later, yet day 7 of
the merged (gap-filled) index stays at or below the transaction maximum
10. -/
theorem C3_merged_series_bounded_by_transaction_horizon_witness :
    (7 : ℤ) ∈ get_time_series_index [5, 10] [12] [20] (fun _ => true) ∧
      (7 : ℤ) ≤ indexMax [5, 10] :=
  ⟨by decide,
    C3_merged_series_bounded_by_transaction_horizon [5, 10] [12] [20]
      (fun _ => true) 7 (by decide)⟩

/-! ### PrecedenceAnalyzer (src/app/src/stats/observations.py) -/

/-- Embeds scipy `percentileofscore` with its default `kind='rank'`:
with `left` the count of values strictly below the score and `right` the
count of values at most the score, the result is
`(left + right + plus) * 50 / n` where `plus` is 1 exactly when the score
occurs in the data (`left < right`). -/
def percentileofscore (a : List ℚ) (score : ℚ) : ℚ :=
  (((a.filter (fun x => x < score)).length : ℚ) +
      ((a.filter (fun x => x ≤ score)).length : ℚ) +
      (if ((a.filter (fun x => x < score)).length : ℚ) <
          ((a.filter (fun x => x ≤ score)).length : ℚ) then 1 else 0)) *
    50 / (a.length : ℚ)

/-- Embeds pandas `Series.rank(ascending=False)` with its default
`method='average'` at one value: the count of strictly greater values
plus the average ordinal position among the ties of the value,
`(count of equal values + 1) / 2`. -/
def rankDescending (a : List ℚ) (x : ℚ) : ℚ :=
  ((a.filter (fun y => x < y)).length : ℚ) +
    (((a.filter (fun y => y = x)).length : ℚ) + 1) / 2

/-- The fields of the one-row frame returned by `precedence` that the
claims concern. -/
structure PrecedenceResult where
  value : ℚ
  pct_better_periods_prior : ℚ
  percentile : ℚ
  rank : ℚ
  deriving DecidableEq

/-- Embeds `precedence`: the metric column is `vals` (positionally
indexed by the time index, NaN-free) and the queried timestamp is the
index entry at position `i`. The prior rows are those at positions before
`i`; their fraction with a value at least the queried value is 0 when no
prior rows exist. -/
def precedence (vals : List ℚ) (i : ℕ) : PrecedenceResult :=
  { value := vals.getD i 0
    pct_better_periods_prior :=
      if (vals.take i).length = 0 then 0
      else (((vals.take i).filter
          (fun x => vals.getD i 0 ≤ x)).length : ℚ) /
        ((vals.take i).length : ℚ)
    percentile := percentileofscore vals (vals.getD i 0)
    rank := rankDescending vals (vals.getD i 0) }

lemma length_filter_lt_add_length_filter_eq (a : List ℚ) (v : ℚ)
    (h : ∀ x ∈ a, x ≤ v) :
    (a.filter (fun x => x < v)).length +
      (a.filter (fun x => x = v)).length = a.length := by
  induction a with
  | nil => simp
  | cons y t ih =>
    have hy : y ≤ v := h y (by simp)
    have ht : ∀ x ∈ t, x ≤ v := fun x hx => h x (by simp [hx])
    have iht := ih ht
    rcases lt_or_eq_of_le hy with hlt | heq
    · have hne : ¬(y = v) := ne_of_lt hlt
      simp [List.filter_cons, hlt, hne]
      omega
    · simp [List.filter_cons, heq]
      omega

/-- Claim C6 (counterexample to the claim as stated): in the series
`[5, 5, 3]` the value at the first position, 5, is the maximum of the
distribution, yet `rank` is 1.5 (pandas uses average ranking, not a dense
one) and `percentile` is 250/3, not 100 — the claim fails whenever the
maximum is tied. -/
theorem C6_counterexample :
    (([(5 : ℚ), 5, 3].filter
        (fun y => (precedence [(5 : ℚ), 5, 3] 0).value < y)).length = 0) ∧
      (precedence [(5 : ℚ), 5, 3] 0).rank ≠ 1 ∧
      (precedence [(5 : ℚ), 5, 3] 0).percentile ≠ 100 := by
  refine ⟨by decide, ?_, ?_⟩
  · norm_num [precedence, rankDescending, List.filter]
  · norm_num [precedence, percentileofscore, List.filter]

/-- Claim C6 (amended: the percentile and rank conjuncts require the
queried value to be the unique maximum — with ties pandas average ranking
gives a shared non-integer rank, not a dense rank): for every NaN-free
series and valid position, `pct_better_periods_prior` is 0 at the first
position, and when the queried value is the maximum and occurs exactly
once, `percentile` is 100 and `rank` is 1. -/
theorem C6_precedence_extremes (vals : List ℚ) (i : ℕ)
    (hi : i < vals.length) :
    (i = 0 → (precedence vals i).pct_better_periods_prior = 0) ∧
    ((∀ x ∈ vals, x ≤ (precedence vals i).value) →
      (vals.filter (fun y => y = (precedence vals i).value)).length = 1 →
      (precedence vals i).percentile = 100 ∧ (precedence vals i).rank = 1) := by
  constructor
  · intro hi0
    subst hi0
    simp [precedence]
  · intro hmax huniq
    simp only [precedence] at hmax huniq ⊢
    set v := vals.getD i 0 with hv
    have hn : vals.length ≠ 0 := by
      intro h0
      rw [List.length_eq_zero] at h0
      rw [h0] at hi
      exact Nat.not_lt_zero i hi
    have hright : vals.filter (fun x => x ≤ v) = vals :=
      List.filter_eq_self.2 (fun a ha => by simpa using hmax a ha)
    have hpart := length_filter_lt_add_length_filter_eq vals v hmax
    rw [huniq] at hpart
    constructor
    · unfold percentileofscore
      rw [hright]
      have hlt : (((vals.filter (fun x => x < v)).length : ℚ)) <
          ((vals.length : ℚ)) := by
        have : (vals.filter (fun x => x < v)).length < vals.length := by
          omega
        exact_mod_cast this
      rw [if_pos hlt]
      have hcast : ((vals.filter (fun x => x < v)).length : ℚ) + 1 =
          (vals.length : ℚ) := by
        exact_mod_cast hpart
      have hnq : ((vals.length : ℚ)) ≠ 0 := by
        exact_mod_cast hn
      field_simp
      linarith
    · unfold rankDescending
      have hgt : vals.filter (fun y => v < y) = [] := by
        rw [List.filter_eq_nil_iff]
        intro x hx
        simpa using not_lt.2 (hmax x hx)
      rw [hgt, huniq]
      norm_num

/-- Witness for the amended C6 at a concrete input: in the series
`[3, 7, 5]` the prior fraction at the first position is 0, and at
position 1 the value 7 is the unique maximum, with percentile 100 and
rank 1. -/
theorem C6_precedence_extremes_witness :
    (precedence [(3 : ℚ), 7, 5] 0).pct_better_periods_prior = 0 ∧
      (precedence [(3 : ℚ), 7, 5] 1).percentile = 100 ∧
      (precedence [(3 : ℚ), 7, 5] 1).rank = 1 :=
  ⟨(C6_precedence_extremes [(3 : ℚ), 7, 5] 0 (by decide)).1 rfl,
    ((C6_precedence_extremes [(3 : ℚ), 7, 5] 1 (by decide)).2
      (by decide) (by decide)).1,
    ((C6_precedence_extremes [(3 : ℚ), 7, 5] 1 (by decide)).2
      (by decide) (by decide)).2⟩

/-! ### HourlyTransactions validation (src/app/src/loading/models.py) -/

/-- A raw numeric cell of the transaction feed as the `pre=True`
validators see it: a missing key or `None` cell, a pandas NaN cell, or a
(locale-parsed) numeric value. -/
inductive RawVal where
  | absent : RawVal
  | nanv : RawVal
  | num : ℚ → RawVal
  deriving DecidableEq

/-- Python truthiness of a raw cell as tested by the root validator
`check_pledge_and_citizens` (`values.get(...) or values.get(...)`):
`None` is falsy, NaN is truthy, and a number is truthy exactly when it is
non-zero. -/
def truthy : RawVal → Bool
  | RawVal.absent => false
  | RawVal.nanv => true
  | RawVal.num v => v ≠ 0

/-- The field validators `parse_currency`: `None` and NaN become `None`;
a numeric value is kept (currency symbols and locale separators having
been handled in the string case). -/
def coerce : RawVal → Option ℚ
  | RawVal.absent => none
  | RawVal.nanv => none
  | RawVal.num v => some v

/-- Python `int(...)` truncation toward zero on a rational. -/
def ratTrunc (q : ℚ) : ℤ :=
  if 0 ≤ q then ⌊q⌋ else -⌊-q⌋

/-- The field validator `parse_integer`: like `parse_currency` but the
value is truncated by `int(float(v))`. -/
def coerceInt : RawVal → Option ℤ
  | RawVal.absent => none
  | RawVal.nanv => none
  | RawVal.num v => some (ratTrunc v)

/-- A raw transaction row (the kwargs of `HourlyTransactions(**row)`),
with the timestamp already parsed. -/
structure RawTransaction where
  datetime_utc : ℤ
  total_pledge : RawVal
  delta_pledge : RawVal
  total_citizens : RawVal
  delta_citizens : RawVal
  data_correction_total_pledge : RawVal
  data_correction_total_citizen : RawVal
  deriving DecidableEq

/-- Embeds the root validator `check_pledge_and_citizens` (`pre=True`,
so it sees the raw values): it raises unless
`total_pledge or data_correction_total_pledge` and
`total_citizens or data_correction_total_citizen` are truthy. -/
def check_pledge_and_citizens (r : RawTransaction) : Bool :=
  (truthy r.total_pledge || truthy r.data_correction_total_pledge) &&
    (truthy r.total_citizens || truthy r.data_correction_total_citizen)

/-- The `HourlyTransactions` model after field validation: every numeric
field optional. -/
structure HourlyTransactions where
  datetime_utc : ℤ
  total_pledge : Option ℚ
  delta_pledge : Option ℚ
  total_citizens : Option ℤ
  delta_citizens : Option ℤ
  data_correction_total_pledge : Option ℚ
  data_correction_total_citizen : Option ℤ
  deriving DecidableEq

/-- The field-validator pass of `HourlyTransactions`. -/
def fieldsOfRaw (r : RawTransaction) : HourlyTransactions :=
  { datetime_utc := r.datetime_utc
    total_pledge := coerce r.total_pledge
    delta_pledge := coerce r.delta_pledge
    total_citizens := coerceInt r.total_citizens
    delta_citizens := coerceInt r.delta_citizens
    data_correction_total_pledge := coerce r.data_correction_total_pledge
    data_correction_total_citizen := coerceInt r.data_correction_total_citizen }

/-- Embeds pydantic construction `HourlyTransactions(**row)`: the
`pre=True` root validator runs first and any failure there is a
`ValidationError`; then the field validators coerce each cell. -/
def mkHourlyTransactions (r : RawTransaction) : Option HourlyTransactions :=
  if check_pledge_and_citizens r then some (fieldsOfRaw r) else none

/-- The `ValidatedTransactionData` model: every field mandatory, with
`total_pledge ≥ 0` and `total_citizens ≥ 0`. -/
structure ValidatedTransactionData where
  datetime_utc : ℤ
  total_pledge : ℚ
  delta_pledge : ℚ
  total_citizens : ℤ
  delta_citizens : ℤ
  deriving DecidableEq

/-- Embeds construction of `ValidatedTransactionData` with its declared
field constraints; a missing field or a negative total is a
`ValidationError`. -/
def mkValidatedTransactionData (datetimeUtc : ℤ) (tp dp : Option ℚ)
    (tc dc : Option ℤ) : Option ValidatedTransactionData :=
  match tp, dp, tc, dc with
  | some a, some b, some c, some d =>
    if 0 ≤ a ∧ 0 ≤ c then some ⟨datetimeUtc, a, b, c, d⟩ else none
  | _, _, _, _ => none

/-- Embeds the `data` property of `HourlyTransactions`: the correction
value substitutes for the primary total whenever it is present
(`x if x is not None else primary`), then the validated model is built. -/
def dataProperty (h : HourlyTransactions) : Option ValidatedTransactionData :=
  mkValidatedTransactionData h.datetime_utc
    (match h.data_correction_total_pledge with
      | some c => some c
      | none => h.total_pledge)
    h.delta_pledge
    (match h.data_correction_total_citizen with
      | some c => some c
      | none => h.total_citizens)
    h.delta_citizens

/-- The two per-row validation stages as run by
`TransactionParser.parse_transactions` (model construction) and
`TransactionParser.parse_dataframe` (the `data` property): a row failing
either stage is logged and skipped. -/
def validateRecord (r : RawTransaction) : Option ValidatedTransactionData :=
  (mkHourlyTransactions r).bind dataProperty

/-- Embeds the batch loops of `parse_transactions` / `parse_dataframe`:
successes accumulate in order, failures are excluded. -/
def parse_dataframe_records (rows : List RawTransaction) :
    List ValidatedTransactionData :=
  rows.filterMap validateRecord

/-- Claim C7: when a record validates and its primary total is absent
while its correction is present, the validated total carries the
correction value; and when neither the primary nor the correction carries
a value, that record is rejected while the rest of the batch is processed
unchanged — a per-row failure never aborts the batch. -/
theorem C7_correction_fallback_and_row_isolation
    (r : RawTransaction) (rest : List RawTransaction) (c : ℚ)
    (v : ValidatedTransactionData) :
    (validateRecord r = some v → coerce r.total_pledge = none →
      coerce r.data_correction_total_pledge = some c →
      v.total_pledge = c) ∧
    (coerce r.total_pledge = none →
      coerce r.data_correction_total_pledge = none →
      validateRecord r = none ∧
        parse_dataframe_records (r :: rest) = parse_dataframe_records rest) := by
  constructor
  · intro hv hprim hcorr
    unfold validateRecord mkHourlyTransactions at hv
    by_cases hchk : check_pledge_and_citizens r = true
    · rw [if_pos hchk] at hv
      have hv2 : dataProperty (fieldsOfRaw r) = some v := hv
      unfold dataProperty fieldsOfRaw at hv2
      rw [hcorr] at hv2
      unfold mkValidatedTransactionData at hv2
      rcases hdp : coerce r.delta_pledge with _ | b
      all_goals rcases htc : coerceInt r.total_citizens with _ | tc0
      all_goals rcases hctc : coerceInt r.data_correction_total_citizen
        with _ | cc0
      all_goals rcases hdc : coerceInt r.delta_citizens with _ | dc0
      all_goals rw [hdp, htc, hctc, hdc] at hv2
      all_goals simp at hv2
      all_goals rcases hv2 with ⟨hcond, hval⟩
      all_goals rw [← hval]
    · rw [if_neg hchk] at hv
      exact Option.noConfusion hv
  · intro hprim hcorr
    have hnone : validateRecord r = none := by
      unfold validateRecord mkHourlyTransactions
      by_cases hchk : check_pledge_and_citizens r = true
      · rw [if_pos hchk]
        have : dataProperty (fieldsOfRaw r) = none := by
          unfold dataProperty fieldsOfRaw
          rw [hcorr, hprim]
          unfold mkValidatedTransactionData
          rfl
        exact this
      · rw [if_neg hchk]
        rfl
    refine ⟨hnone, ?_⟩
    unfold parse_dataframe_records
    rw [List.filterMap_cons, hnone]

/-- Witness for C7 at concrete records: a record with an absent primary
pledge and correction 100 validates to total 100, and a record with both
pledge sources empty is dropped while the rest of the batch (here empty)
is unaffected. -/
theorem C7_correction_fallback_and_row_isolation_witness :
    ({ datetime_utc := 0, total_pledge := 100, delta_pledge := 10,
        total_citizens := 2, delta_citizens := 1 } :
          ValidatedTransactionData).total_pledge = 100 ∧
      (validateRecord
          { datetime_utc := 0, total_pledge := RawVal.absent,
            delta_pledge := RawVal.num 10,
            total_citizens := RawVal.num 2,
            delta_citizens := RawVal.num 1,
            data_correction_total_pledge := RawVal.absent,
            data_correction_total_citizen := RawVal.absent } = none ∧
        parse_dataframe_records
            [{ datetime_utc := 0, total_pledge := RawVal.absent,
               delta_pledge := RawVal.num 10,
               total_citizens := RawVal.num 2,
               delta_citizens := RawVal.num 1,
               data_correction_total_pledge := RawVal.absent,
               data_correction_total_citizen := RawVal.absent }] =
          parse_dataframe_records []) :=
  ⟨(C7_correction_fallback_and_row_isolation
      { datetime_utc := 0, total_pledge := RawVal.absent,
        delta_pledge := RawVal.num 10, total_citizens := RawVal.num 2,
        delta_citizens := RawVal.num 1,
        data_correction_total_pledge := RawVal.num 100,
        data_correction_total_citizen := RawVal.absent } [] 100
      { datetime_utc := 0, total_pledge := 100, delta_pledge := 10,
        total_citizens := 2, delta_citizens := 1 }).1
      (by decide) (by decide) (by decide),
    (C7_correction_fallback_and_row_isolation
      { datetime_utc := 0, total_pledge := RawVal.absent,
        delta_pledge := RawVal.num 10, total_citizens := RawVal.num 2,
        delta_citizens := RawVal.num 1,
        data_correction_total_pledge := RawVal.absent,
        data_correction_total_citizen := RawVal.absent } [] 0
      { datetime_utc := 0, total_pledge := 0, delta_pledge := 0,
        total_citizens := 0, delta_citizens := 0 }).2
      (by decide) (by decide)⟩

/-- Claim C10: a raw record whose primary `total_pledge` is exactly 0
with its correction missing or also 0 fails the `pre=True` root
validator, because presence is tested by Python truthiness and `0` is
falsy — even though the value 0 satisfies the declared
`total_pledge ≥ 0` constraint of `ValidatedTransactionData`, as the
second conjunct shows. -/
theorem C10_zero_total_rejected_by_truthiness (r : RawTransaction)
    (hz : r.total_pledge = RawVal.num 0)
    (hc : r.data_correction_total_pledge = RawVal.absent ∨
      r.data_correction_total_pledge = RawVal.num 0) :
    validateRecord r = none ∧
      (mkValidatedTransactionData r.datetime_utc (some 0) (some 0) (some 0)
        (some 0)).isSome = true := by
  constructor
  · unfold validateRecord mkHourlyTransactions check_pledge_and_citizens
    have h1 : truthy r.total_pledge = false := by
      rw [hz]
      simp [truthy]
    have h2 : truthy r.data_correction_total_pledge = false := by
      rcases hc with h | h <;> rw [h] <;> simp [truthy]
    rw [h1, h2]
    rfl
  · show (if (0 : ℚ) ≤ 0 ∧ (0 : ℤ) ≤ 0 then
        some (⟨r.datetime_utc, 0, 0, 0, 0⟩ : ValidatedTransactionData)
      else none).isSome = true
    rw [if_pos ⟨le_refl (0 : ℚ), le_refl (0 : ℤ)⟩]
    rfl

/-- Witness for C10 at a concrete record: primary pledge 0, correction
missing, citizens fields present — the record is rejected although a
validated record with total 0 would satisfy the declared constraint. -/
theorem C10_zero_total_rejected_by_truthiness_witness :
    validateRecord
        { datetime_utc := 0, total_pledge := RawVal.num 0,
          delta_pledge := RawVal.num 10, total_citizens := RawVal.num 2,
          delta_citizens := RawVal.num 1,
          data_correction_total_pledge := RawVal.absent,
          data_correction_total_citizen := RawVal.absent } = none ∧
      (mkValidatedTransactionData 0 (some 0) (some 0) (some 0)
        (some 0)).isSome = true :=
  C10_zero_total_rejected_by_truthiness
    { datetime_utc := 0, total_pledge := RawVal.num 0,
      delta_pledge := RawVal.num 10, total_citizens := RawVal.num 2,
      delta_citizens := RawVal.num 1,
      data_correction_total_pledge := RawVal.absent,
      data_correction_total_citizen := RawVal.absent }
    rfl (Or.inl rfl)

/-! ### FileLoader.get_time_series (src/app/src/loading/loader.py) -/

/-- Embeds `FileLoader.get_time_series`. The `time_series_constructor`
attribute is `None` until built (`Option`); a built constructor is
modelled by the outcome of its `get` call — the resampled series or a
raised exception with its message (`Except`). An uninitialized
constructor raises a `ValueError` to the caller; an exception from the
inner `get` is caught, logged, and replaced by an empty frame. -/
def FileLoader_get_time_series
    (time_series_constructor : Option (Except String (List ℚ))) :
    Except String (List ℚ) :=
  match time_series_constructor with
  | none => Except.error "time_series_constructor is not initialized."
  | some runGet =>
    match runGet with
    | Except.ok s => Except.ok s
    | Except.error _ => Except.ok []

/-- Claim C8: requesting a resampled series before the base series is
built fails with a state error raised to the caller, and any exception
during the resampling itself is caught and an empty series is returned
instead of propagating. -/
theorem C8_state_error_and_empty_on_exception
    (c : Except String (List ℚ)) (e : String) :
    FileLoader_get_time_series none =
        Except.error "time_series_constructor is not initialized." ∧
      (c = Except.error e →
        FileLoader_get_time_series (some c) = Except.ok []) := by
  refine ⟨rfl, ?_⟩
  intro h
  rw [h]
  rfl

/-- Witness for C8 at a concrete input: a constructor whose resample call
raises yields the empty series, not the exception. -/
theorem C8_state_error_and_empty_on_exception_witness :
    FileLoader_get_time_series
        (some (Except.error "resample failed")) = Except.ok [] :=
  (C8_state_error_and_empty_on_exception
    (Except.error "resample failed") "resample failed").2 rfl

/-! ### GameVersionParser.expand_intervals
(src/app/src/loading/loader.py) -/

/-- A parsed game-version interval row (dates as day numbers). -/
structure VersionInterval where
  date_start : ℤ
  date_end : ℤ
  version : String
  major : ℤ
  minor : ℤ
  patch : String
  patch_count : ℤ
  deriving DecidableEq

/-- One per-day row of the expanded (long) version table. -/
structure VersionRow where
  datetime_utc : ℤ
  version : String
  major : ℤ
  minor : ℤ
  patch : String
  patch_count : ℤ
  days_since_current_patch_launch : ℤ
  deriving DecidableEq

/-- Embeds `GameVersionParser.expand_intervals`:
`pd.date_range(start, end)` yields one entry per calendar day of the
closed range (empty when the end precedes the start),
`days_since_current_patch_launch` is `(date_range - date_start).days`,
and the interval's labels are copied onto every row. -/
def expand_intervals (row : VersionInterval) : List VersionRow :=
  (List.range (row.date_end - row.date_start + 1).toNat).map
    (fun i : ℕ =>
      { datetime_utc := row.date_start + (i : ℤ)
        version := row.version
        major := row.major
        minor := row.minor
        patch := row.patch
        patch_count := row.patch_count
        days_since_current_patch_launch := (i : ℤ) })

/-- Claim C9: for every interval with `date_start ≤ date_end`, expansion
produces exactly `(date_end - date_start) + 1` per-day rows covering the
closed range, each carrying the interval's labels and the zero-based
days-since-start counter taking consecutive values `0, 1, ...` — row `k`
sits at day `date_start + k` with counter `k`. -/
theorem C9_expand_intervals_dense_daily (row : VersionInterval)
    (h : row.date_start ≤ row.date_end) :
    (expand_intervals row).length =
        (row.date_end - row.date_start).toNat + 1 ∧
      ∀ k, (hk : k < (expand_intervals row).length) →
        ((expand_intervals row)[k].days_since_current_patch_launch =
            (k : ℤ) ∧
          (expand_intervals row)[k].datetime_utc =
            row.date_start + (k : ℤ) ∧
          (expand_intervals row)[k].version = row.version ∧
          (expand_intervals row)[k].patch_count = row.patch_count) := by
  constructor
  · unfold expand_intervals
    rw [List.length_map, List.length_range]
    omega
  · intro k hk
    have hk2 : k < (row.date_end - row.date_start + 1).toNat := by
      unfold expand_intervals at hk
      rw [List.length_map, List.length_range] at hk
      exact hk
    unfold expand_intervals
    simp [List.getElem_map, List.getElem_range]

/-- Witness for C9 at the claim's concrete instance: the interval from
day 18262 (2020-01-01) to day 18264 (2020-01-03) expands to exactly 3
rows whose counters are `[0, 1, 2]`. -/
theorem C9_expand_intervals_dense_daily_witness :
    (expand_intervals
          { date_start := 18262, date_end := 18264, version := "Alpha 3.0",
            major := 3, minor := 0, patch := "0",
            patch_count := 40 }).length = 3 ∧
      (expand_intervals
          { date_start := 18262, date_end := 18264, version := "Alpha 3.0",
            major := 3, minor := 0, patch := "0", patch_count := 40 }).map
        (fun r => r.days_since_current_patch_launch) = [0, 1, 2] :=
  ⟨(C9_expand_intervals_dense_daily
      { date_start := 18262, date_end := 18264, version := "Alpha 3.0",
        major := 3, minor := 0, patch := "0", patch_count := 40 }
      (by decide)).1,
    by decide⟩

end SCFunding
